import Mathlib

/-!
Verification development for the XP leaderboard component
(`src/components/XPLeaderboard.tsx`): a shallow embedding of its
data model, ranking/format step, view filtering, fetch/update state
handling, staleness check and debounce machinery, together with
theorems about the specified properties.

Modelling conventions:
* timestamps (`last_updated`, wall-clock times) are integers counting
  milliseconds since the epoch; the string form of a timestamp is its
  decimal representation;
* JavaScript string truthiness tests (`if (filters.cohortType)`) are
  embedded as inequality with the empty string;
* thrown errors are carried as their message strings (`Except String`);
* React state setters become functional record updates on an explicit
  component-state record.
-/

/-- A raw row of the `student_xp` table as returned by the store
(lines 42-54 of the source). -/
structure RawEntry where
  enrollment_id : String
  full_name : String
  email : String
  cohort_type : String
  cohort_number : String
  xp : Nat
  last_updated : Int
deriving DecidableEq

/-- A formatted leaderboard entry: a raw row plus the assigned `rank`
field (the `LeaderboardEntry` shape built at lines 56-65). -/
structure LeaderboardEntry where
  rank : Nat
  enrollment_id : String
  full_name : String
  email : String
  cohort_type : String
  cohort_number : String
  xp : Nat
  last_updated : Int
deriving DecidableEq

/-- The entry built from one raw row at position `index` in the fetched
order: `rank: index + 1` together with the copied payload fields
(lines 56-65). -/
def mkRanked (r : Nat) (e : RawEntry) : LeaderboardEntry :=
  ⟨r, e.enrollment_id, e.full_name, e.email, e.cohort_type,
    e.cohort_number, e.xp, e.last_updated⟩

/-- Forgets the `rank` field, recovering the raw payload of an entry. -/
def toRaw (e : LeaderboardEntry) : RawEntry :=
  ⟨e.enrollment_id, e.full_name, e.email, e.cohort_type,
    e.cohort_number, e.xp, e.last_updated⟩

/-- Embedding of `data.map((entry, index) => ({ rank: index + 1, ... }))`
(lines 56-65) as a recursion carrying the current zero-based index. -/
def formatDataFrom (i : Nat) : List RawEntry → List LeaderboardEntry
  | [] => []
  | e :: rest => mkRanked (i + 1) e :: formatDataFrom (i + 1) rest

/-- The formatting step applied to the full fetched list, starting at
index 0 (line 56). -/
def formatData (data : List RawEntry) : List LeaderboardEntry :=
  formatDataFrom 0 data

/-- The order requested from the store at lines 45-46: `xp` descending,
then `last_updated` ascending, as a relation between consecutive rows. -/
def storeOrd (a b : RawEntry) : Prop :=
  b.xp < a.xp ∨ (b.xp = a.xp ∧ a.last_updated ≤ b.last_updated)

instance : DecidableRel storeOrd := by
  intro a b
  unfold storeOrd
  infer_instance

/-- Whether `needle` occurs starting at the head of `hay`. -/
def matchesHere : List Char → List Char → Bool
  | [], _ => true
  | _ :: _, [] => false
  | a :: as, b :: bs => a == b && matchesHere as bs

/-- Whether `needle` occurs anywhere inside `hay`. -/
def hasSub (needle : List Char) : List Char → Bool
  | [] => needle.isEmpty
  | b :: bs => matchesHere needle (b :: bs) || hasSub needle bs

/-- Embedding of JavaScript `hay.includes(needle)` substring containment. -/
def strIncludes (hay needle : String) : Bool :=
  hasSub needle.toList hay.toList

/-- The filter criteria record (`FilterOptions`, lines 9-12). -/
structure FilterOptions where
  cohortType : String
  cohortNumber : String
deriving DecidableEq

/-- The field values of an entry in object-literal insertion order, each
in string form: embedding of `Object.values(entry)` with `String(value)`
applied (lines 99-100). -/
def entryValues (e : LeaderboardEntry) : List String :=
  [toString e.rank, e.enrollment_id, e.full_name, e.email,
    e.cohort_type, e.cohort_number, toString e.xp, toString e.last_updated]

/-- The search predicate of lines 98-102: some stringified field of the
entry contains the search term, case-insensitively. -/
def searchMatches (searchTerm : String) (e : LeaderboardEntry) : Bool :=
  (entryValues e).any (fun v => strIncludes v.toLower searchTerm.toLower)

/-- Embedding of the filter effect at lines 81-106: starting from a copy
of the canonical list, conditionally apply the cohort-type equality
filter, the cohort-number substring filter, and the any-field search
filter; empty criteria are skipped (JS truthiness). -/
def applyFilters (leaderboard : List LeaderboardEntry)
    (filters : FilterOptions) (searchTerm : String) : List LeaderboardEntry :=
  let filtered := leaderboard
  let filtered :=
    if filters.cohortType ≠ "" then
      filtered.filter (fun e => e.cohort_type == filters.cohortType)
    else filtered
  let filtered :=
    if filters.cohortNumber ≠ "" then
      filtered.filter (fun e => strIncludes e.cohort_number filters.cohortNumber)
    else filtered
  let filtered :=
    if searchTerm ≠ "" then
      filtered.filter (searchMatches searchTerm)
    else filtered
  filtered

/-- The view predicate as the specification words it (section 4.2): each
non-empty criterion is a conjunctive predicate — category exact equality,
batch case-sensitive substring, search term case-insensitive substring
against the string form of any field — and empty criteria match
everything. Written from the spec, to be compared with `applyFilters`. -/
def specViewPredicate (filters : FilterOptions) (searchTerm : String)
    (e : LeaderboardEntry) : Bool :=
  (filters.cohortType == "" || e.cohort_type == filters.cohortType)
  && (filters.cohortNumber == ""
      || strIncludes e.cohort_number filters.cohortNumber)
  && (searchTerm == "" || searchMatches searchTerm e)

/-- The rank numbers shown by the render at lines 420-431: for each
position `index` of the filtered view, the displayed rank is
`index + 1`. -/
def displayedRanks (view : List LeaderboardEntry) : List Nat :=
  (List.range view.length).map (fun i => i + 1)

/-- The component state touched by the fetch and update operations:
the canonical dataset and the flags set through React state setters
(lines 20-32). `lastUpdated` holds the display string written by
`setLastUpdated(new Date().toLocaleString())`. -/
structure CState where
  leaderboard : List LeaderboardEntry
  loading : Bool
  refreshing : Bool
  lastUpdated : String
  error : String
  updateProgress : Nat × Nat
deriving DecidableEq

/-- Embedding of `fetchLeaderboard` (lines 36-78). The store round-trip
is abstracted as its outcome `result`: a thrown/reported error message,
or the fetched rows. `now` is the display string the success path
writes into `lastUpdated`. The try/catch/finally structure becomes a
match: on success the dataset is replaced wholesale by the formatted
rows and `lastUpdated` is refreshed only for non-empty data (line 69);
on error only the message is recorded; `loading` is cleared on every
path (the finally block, line 76). -/
def fetchLeaderboard (showLoading : Bool)
    (result : Except String (List RawEntry)) (now : String)
    (s : CState) : CState :=
  let s := if showLoading then { s with loading := true } else s
  let s := { s with error := "" }
  match result with
  | .error e => { s with error := e, loading := false }
  | .ok data =>
    let s := { s with leaderboard := formatData data }
    let s := if data.length > 0 then { s with lastUpdated := now } else s
    { s with loading := false }

/-- Outcome of the recomputation job invoked by `updateXPData`
(lines 145-159): a non-ok HTTP response with its status, a response
whose body reports failure with `result.error` (the empty string
standing for a falsy/absent message, line 158), or success. -/
inductive JobOutcome where
  | httpError (status : Nat)
  | jobFail (errMsg : String)
  | jobOk
deriving DecidableEq

/-- Embedding of `updateXPData` (lines 139-167). Returns the new state
together with a flag recording whether a refetch was performed (the
`fetchLeaderboard(false)` call at line 155 happens only on job
success). `fetchResult` is the outcome that refetch would see. The
finally block (lines 163-166) clears `refreshing` and resets
`updateProgress` on every path. -/
def updateXPData (job : JobOutcome)
    (fetchResult : Except String (List RawEntry)) (now : String)
    (s : CState) : CState × Bool :=
  let s := { s with refreshing := true, error := "", updateProgress := (0, 0) }
  match job with
  | .httpError status =>
    ({ s with
        error := ("HTTP error! status: " ++ toString status),
        refreshing := false, updateProgress := (0, 0) }, false)
  | .jobFail errMsg =>
    ({ s with
        error := (if errMsg = "" then "XP update failed" else errMsg),
        refreshing := false, updateProgress := (0, 0) }, false)
  | .jobOk =>
    let s := fetchLeaderboard false fetchResult now s
    let s := { s with lastUpdated := now }
    ({ s with refreshing := false, updateProgress := (0, 0) }, true)

/-- The dependency key of the staleness-check effect (line 191): the
value `leaderboard.length > 0 ? leaderboard[0]?.last_updated : null`.
The effect re-runs exactly when this key changes between renders. -/
def depKey : List LeaderboardEntry → Option Int
  | [] => none
  | e :: _ => some e.last_updated

/-- The elapsed hours computed by `checkAutoUpdate` (line 181):
`(now.getTime() - lastUpdate.getTime()) / (1000 * 60 * 60)`, over exact
rational arithmetic on millisecond timestamps. -/
def hoursSinceUpdate (now lastUpdate : Int) : ℚ :=
  ((now - lastUpdate : Int) : ℚ) / (1000 * 60 * 60)

/-- The staleness condition tested by `checkAutoUpdate` (lines 178-186):
the hours elapsed since `leaderboard[0]?.last_updated || 0` reach 24.
When it holds, `updateXPData` is invoked. -/
def checkAutoUpdate (lb : List LeaderboardEntry) (now : Int) : Bool :=
  let lastUpdate : Int := ((lb.head?).map (fun e => e.last_updated)).getD 0
  decide (24 ≤ hoursSinceUpdate now lastUpdate)

/-- Staleness-check firing count over a sequence of renders, each given
as the dataset snapshot together with the wall-clock time at which the
armed 3-second timer would fire. Modelling assumptions, faithful to the
effect at lines 175-191: the effect re-runs when its dependency key
changes from the previous render (`prev`); a run with an empty dataset
returns early; a run with a non-empty dataset arms a 3-second timer; and
every snapshot persists longer than 3 seconds, so each armed timer fires
(at the recorded time) and counts one `updateXPData` invocation when the
staleness condition holds. -/
def stalenessTriggersAux (prev : Option Int) :
    List (List LeaderboardEntry × Int) → Nat
  | [] => 0
  | (lb, now) :: rest =>
    (if depKey lb ≠ prev ∧ lb ≠ [] ∧ checkAutoUpdate lb now = true
      then 1 else 0)
      + stalenessTriggersAux (depKey lb) rest

/-- Staleness-check firing count for a trace of renders following the
mount render, whose dataset is empty (`useState([])`, line 20), so the
initial dependency key is `none`. -/
def stalenessTriggers (trace : List (List LeaderboardEntry × Int)) : Nat :=
  stalenessTriggersAux none trace

/-- External events seen by the realtime-subscription effect
(lines 109-137) within one subscription epoch: a change notification at
a given time, or the teardown of the effect. Times are milliseconds. -/
inductive NEvent where
  | notif (t : Int)
  | teardown (t : Int)
deriving DecidableEq

/-- State of the debounce machinery of lines 109-137: whether the
subscription is still live (`isSubscribed`), the absolute deadline of
the pending single-slot debounce timer if one is armed, and the times at
which a debounced `fetchLeaderboard(false)` has fired so far. -/
structure DState where
  subscribed : Bool
  pending : Option Int
  fires : List Int
deriving DecidableEq

/-- If the pending timer's deadline has passed by time `t`, it fires:
the timer slot empties and, exactly when `isSubscribed` still holds
(the guard at line 123), a refetch is recorded at the deadline. -/
def fireIfDue (s : DState) (t : Int) : DState :=
  match s.pending with
  | none => s
  | some d =>
    if d ≤ t then
      { s with
          pending := none,
          fires := s.fires ++ (if s.subscribed then [d] else []) }
    else s

/-- One event of the subscription callback (lines 117-128) and cleanup
(lines 132-136). `loading` is the value captured by the effect closure,
constant within a subscription epoch (the effect re-subscribes when
`loading` changes, since it is in the dependency array at line 137). A
notification first lets any due timer fire, then — under the guard
`isSubscribed && !loading` of line 120 — clears and re-arms the single
debounce timer for 2000 ms later. Teardown clears the timer and marks
the subscription dead. -/
def dstep (loading : Bool) (s : DState) : NEvent → DState
  | .notif t =>
    let s := fireIfDue s t
    if s.subscribed && !loading then { s with pending := some (t + 2000) }
    else s
  | .teardown t =>
    let s := fireIfDue s t
    { s with subscribed := false, pending := none }

/-- Runs a time-ordered list of events through the debounce machinery. -/
def drun (loading : Bool) (s : DState) (es : List NEvent) : DState :=
  es.foldl (dstep loading) s

/-- After the last event, a still-armed timer eventually reaches its
deadline and fires (subject to the `isSubscribed` guard). -/
def dflush (s : DState) : DState :=
  match s.pending with
  | none => s
  | some d =>
    { s with
        pending := none,
        fires := s.fires ++ (if s.subscribed then [d] else []) }

/-- The times at which debounced refetches fire for a given event list,
starting from a fresh subscription with no timer armed and `loading`
captured as given. -/
def refetchTimes (loading : Bool) (es : List NEvent) : List Int :=
  (dflush (drun loading ⟨true, none, []⟩ es)).fires

/-- Fetch-concurrency state: the `loading` flag (line 28) and the
numbers of loading-indicating (manual, `showLoading = true`) and
background (`showLoading = false`) `fetchLeaderboard` calls currently
in flight. -/
structure FetchSt where
  loading : Bool
  manualInFlight : Nat
  bgInFlight : Nat
deriving DecidableEq

/-- Atomic events of the fetch-concurrency model: a click on the Reload
button starting `fetchLeaderboard(true)` (line 278), a debounced
background `fetchLeaderboard(false)` firing (line 124), and the
completion of either kind of fetch, whose finally block (line 76) runs
`setLoading(false)` unconditionally. -/
inductive FEvent where
  | clickReload
  | bgFetch
  | manualDone
  | bgDone
deriving DecidableEq

/-- Whether an event can occur in a state. The Reload button is
disabled while `loading` (line 279). A debounced background fetch fires
only when `loading` is false: notifications arm the timer only under
`!loading` (line 120) and a `loading` change re-creates the effect and
clears any pending timer (dependency array, line 137). Completions
require a fetch of that kind to be in flight. -/
def fguard (s : FetchSt) : FEvent → Bool
  | .clickReload => !s.loading
  | .bgFetch => !s.loading
  | .manualDone => decide (0 < s.manualInFlight)
  | .bgDone => decide (0 < s.bgInFlight)

/-- Effect of an event: starting a manual fetch sets `loading` (line 38)
and increments the manual in-flight count; a background fetch leaves
`loading` untouched; either completion clears `loading` (the finally
block) and decrements its in-flight count. -/
def fstep (s : FetchSt) : FEvent → FetchSt
  | .clickReload =>
    { s with loading := true, manualInFlight := s.manualInFlight + 1 }
  | .bgFetch => { s with bgInFlight := s.bgInFlight + 1 }
  | .manualDone =>
    { s with loading := false, manualInFlight := s.manualInFlight - 1 }
  | .bgDone => { s with loading := false, bgInFlight := s.bgInFlight - 1 }

/-- Runs a list of events through the fetch-concurrency model. -/
def frun (s : FetchSt) (es : List FEvent) : FetchSt :=
  es.foldl fstep s

/-- Whether every event of the list is allowed by its guard in the state
reached when it occurs. -/
def fvalid (s : FetchSt) : List FEvent → Bool
  | [] => true
  | e :: es => fguard s e && fvalid (fstep s e) es

/-- The idle initial fetch state: nothing in flight, `loading` false. -/
def finit : FetchSt := ⟨false, 0, 0⟩

/-- Total number of fetches in flight. -/
def inFlight (s : FetchSt) : Nat := s.manualInFlight + s.bgInFlight

/-- The invariant maintained by manual-only traces: at most one manual
fetch in flight, and `loading` holds exactly while one is. -/
def manualInv (s : FetchSt) : Prop :=
  s.manualInFlight ≤ 1 ∧ (s.loading = true ↔ s.manualInFlight = 1)

/-- Sample raw rows, listed out of the requested store order (the lower
score first). -/
def rawLow : RawEntry := ⟨"E001", "Asha", "asha@mentiby.test", "Basic", "1.0", 10, 5000⟩

/-- Sample raw row with the higher score. -/
def rawHigh : RawEntry := ⟨"E002", "Vikram", "vikram@mentiby.test", "MERN", "2.0", 40, 4000⟩

/-- A store response violating the requested order: ascending scores. -/
def dataUnsorted : List RawEntry := [rawLow, rawHigh]

/-- Canonical ranked entries used in the filtering counterexample:
rank 1, cohort type Basic. -/
def entryA : LeaderboardEntry := ⟨1, "E001", "Asha", "asha@mentiby.test", "Basic", "1.0", 40, 4000⟩

/-- Rank 2, cohort type MERN. -/
def entryB : LeaderboardEntry := ⟨2, "E002", "Vikram", "vikram@mentiby.test", "MERN", "2.0", 30, 5000⟩

/-- A stale head entry: top-ranked, last updated at time 0. -/
def staleHead : LeaderboardEntry := ⟨1, "E001", "Asha", "asha@mentiby.test", "Basic", "1.0", 40, 0⟩

/-- A fresh lower-ranked entry: last updated 1000 ms before the check
time 90000000 used in the staleness counterexample. -/
def freshTail : LeaderboardEntry := ⟨2, "E002", "Vikram", "vikram@mentiby.test", "MERN", "2.0", 30, 89999000⟩

/-- The head entry after a dataset update: its `last_updated` moved to
90000000 yet is again 25 hours old at the second check time. -/
def staleHead2 : LeaderboardEntry := ⟨1, "E001", "Asha", "asha@mentiby.test", "Basic", "1.0", 45, 90000000⟩

/-- Render trace for the re-fire counterexample: two non-empty
snapshots whose head `last_updated` differs, each checked 25 hours
after that head timestamp, with no empty dataset in between. -/
def staleTrace : List (List LeaderboardEntry × Int) :=
  [([staleHead], 90000000), ([staleHead2], 180000000)]

/-- A store response honouring the requested order: descending scores. -/
def dataSorted : List RawEntry := [rawHigh, rawLow]

/-- A sample component state holding one entry and a previous
`lastUpdated` string, used to instantiate witnesses. -/
def sampleState : CState := ⟨[entryA], false, false, "prev", "", (0, 0)⟩

/-- Stripping the rank from a formatted entry recovers the raw row. -/
theorem toRaw_mkRanked (r : Nat) (e : RawEntry) : toRaw (mkRanked r e) = e := rfl

/-- The ranks assigned by the formatting step starting at index `i` are
the consecutive integers from `i + 1`. -/
theorem formatDataFrom_map_rank (i : Nat) (l : List RawEntry) :
    (formatDataFrom i l).map (fun e => e.rank) = List.range' (i + 1) l.length := by
  induction l generalizing i with
  | nil => simp [formatDataFrom]
  | cons e rest ih =>
    simp [formatDataFrom, mkRanked, List.range', ih]

/-- The formatting step preserves the raw payloads in order. -/
theorem formatDataFrom_map_toRaw (i : Nat) (l : List RawEntry) :
    (formatDataFrom i l).map toRaw = l := by
  induction l generalizing i with
  | nil => simp [formatDataFrom]
  | cons e rest ih => simp [formatDataFrom, toRaw_mkRanked, ih]

/-- The three sequential conditional filters of the view effect compute
exactly the single conjunctive filter worded by the specification. -/
theorem applyFilters_eq_filter (l : List LeaderboardEntry)
    (f : FilterOptions) (s : String) :
    applyFilters l f s = l.filter (specViewPredicate f s) := by
  have eb : ∀ t : String, t = "" → ((t == "") = true) :=
    fun t ht => beq_iff_eq.mpr ht
  have nb : ∀ t : String, ¬t = "" → ((t == "") = false) :=
    fun t ht => beq_eq_false_iff_ne.mpr ht
  unfold applyFilters specViewPredicate
  by_cases h1 : f.cohortType = "" <;> by_cases h2 : f.cohortNumber = "" <;>
    by_cases h3 : s = "" <;>
      simp [h1, h2, h3, eb, nb, List.filter_filter,
        Bool.and_assoc, Bool.and_comm, Bool.and_left_comm]

/-- C5: the view filter includes exactly the entries satisfying the
conjunction of all non-empty criteria — cohort type by exact equality,
cohort number by case-sensitive substring containment, and the search
term by case-insensitive substring match against the string form of any
field — while absent (empty) criteria match every entry: the three
sequential conditional filters equal one filter by the conjunctive
specification predicate. -/
theorem view_filter_semantics (l : List LeaderboardEntry)
    (f : FilterOptions) (s : String) :
    applyFilters l f s = l.filter (specViewPredicate f s) :=
  applyFilters_eq_filter l f s

/-- C9: filtering is monotonic in the search term — for every dataset
and criteria, a search term on top of the criteria never increases the
number of entries in the filtered view. -/
theorem search_monotonic (l : List LeaderboardEntry)
    (f : FilterOptions) (s : String) :
    (applyFilters l f s).length ≤ (applyFilters l f "").length := by
  rw [applyFilters_eq_filter, applyFilters_eq_filter]
  rw [← List.countP_eq_length_filter, ← List.countP_eq_length_filter]
  refine List.countP_mono_left (fun e he hp => ?_)
  unfold specViewPredicate at hp ⊢
  simp only [Bool.and_eq_true, Bool.or_eq_true] at hp ⊢
  have hempty : (("" : String) == "") = true := rfl
  tauto

/-- C4 (amended): the filtered view is a subsequence of the canonical
ranked sequence in the same relative order — entries, including their
stored `rank` fields, are carried over unchanged — but the rank shown
for display is the 1-based position within the filtered view, not the
entry's canonical rank. -/
theorem filtered_view_sublist_display (l : List LeaderboardEntry)
    (f : FilterOptions) (s : String) :
    (applyFilters l f s).Sublist l
  ∧ displayedRanks (applyFilters l f s)
      = List.range' 1 (applyFilters l f s).length := by
  constructor
  · rw [applyFilters_eq_filter]
    exact List.filter_sublist l
  · unfold displayedRanks
    rw [List.range'_eq_map_range]
    exact List.map_congr_left (fun i _ => Nat.add_comm 1 i) ▸ rfl

/-- C4 counterexample: filtering a two-entry canonical set down to its
rank-2 entry displays that entry with rank 1, so the displayed rank is
not the preserved canonical rank value. -/
theorem display_rerank_cx :
    applyFilters [entryA, entryB] ⟨"MERN", ""⟩ "" = [entryB]
  ∧ entryB.rank = 2
  ∧ displayedRanks (applyFilters [entryA, entryB] ⟨"MERN", ""⟩ "") = [1] := by
  refine ⟨?_, rfl, ?_⟩ <;> decide

/-- C7: when a fetch fails, the error message is surfaced, the canonical
dataset — and hence every filtered view derived from it — is left
unchanged, `lastUpdated` is untouched, and the loading flag returns to
false so subsequent triggers still work. -/
theorem fetch_failure_preserves_state (showLoading : Bool)
    (e now : String) (s : CState) :
    (fetchLeaderboard showLoading (.error e) now s).leaderboard = s.leaderboard
  ∧ (fetchLeaderboard showLoading (.error e) now s).error = e
  ∧ (fetchLeaderboard showLoading (.error e) now s).loading = false
  ∧ (fetchLeaderboard showLoading (.error e) now s).lastUpdated = s.lastUpdated
  ∧ ∀ (f : FilterOptions) (srch : String),
      applyFilters (fetchLeaderboard showLoading (.error e) now s).leaderboard f srch
        = applyFilters s.leaderboard f srch := by
  unfold fetchLeaderboard
  by_cases h : showLoading <;> simp [h]

/-- C10: a successful fetch returning zero records still replaces the
canonical dataset wholesale with the empty list, but leaves
`lastUpdated` unchanged; `lastUpdated` is refreshed exactly when the
fetched data is non-empty. -/
theorem empty_fetch_replaces_keeps_timestamp (showLoading : Bool)
    (now : String) (s : CState) :
    ((fetchLeaderboard showLoading (.ok []) now s).leaderboard = []
  ∧ (fetchLeaderboard showLoading (.ok []) now s).lastUpdated = s.lastUpdated)
  ∧ ∀ data : List RawEntry, data ≠ [] →
      (fetchLeaderboard showLoading (.ok data) now s).lastUpdated = now := by
  constructor
  · unfold fetchLeaderboard formatData formatDataFrom
    by_cases h : showLoading <;> simp [h]
  · intro data hdata
    unfold fetchLeaderboard
    have hlen : 0 < data.length := List.length_pos.mpr hdata
    by_cases h : showLoading <;> simp [h, hlen]

/-- C10 witness: a successful empty fetch on the sample state clears the
dataset and keeps the previous timestamp, while a one-row fetch
refreshes it. -/
theorem empty_fetch_replaces_keeps_timestamp_witness :
    ((fetchLeaderboard true (.ok []) "next" sampleState).leaderboard = []
  ∧ (fetchLeaderboard true (.ok []) "next" sampleState).lastUpdated
      = sampleState.lastUpdated)
  ∧ (fetchLeaderboard true (.ok [rawHigh]) "next" sampleState).lastUpdated
      = "next" :=
  ⟨(empty_fetch_replaces_keeps_timestamp true "next" sampleState).1,
    (empty_fetch_replaces_keeps_timestamp true "next" sampleState).2
      [rawHigh] (by decide)⟩

/-- C8: the update-trigger operation performs no refetch, surfaces a
non-empty error and leaves the canonical dataset and timestamp
unaltered whenever the job fails (non-ok HTTP response or job-reported
failure); it refetches exactly on job success; and it clears the
updating state and progress on every exit path. -/
theorem update_trigger_error_paths (job : JobOutcome)
    (fr : Except String (List RawEntry)) (now : String) (s : CState) :
    (job ≠ .jobOk →
      (updateXPData job fr now s).2 = false
      ∧ (updateXPData job fr now s).1.leaderboard = s.leaderboard
      ∧ (updateXPData job fr now s).1.error ≠ ""
      ∧ (updateXPData job fr now s).1.lastUpdated = s.lastUpdated)
  ∧ (job = .jobOk → (updateXPData job fr now s).2 = true)
  ∧ (updateXPData job fr now s).1.refreshing = false
  ∧ (updateXPData job fr now s).1.updateProgress = (0, 0) := by
  cases job with
  | httpError status =>
    refine ⟨fun _ => ⟨rfl, rfl, ?_, rfl⟩,
      fun h => JobOutcome.noConfusion h, rfl, rfl⟩
    show ¬ ("HTTP error! status: " ++ toString status) = ""
    intro hx
    have hlen := congrArg String.length hx
    rw [String.length_append] at hlen
    have h20 : ("HTTP error! status: ").length = 20 := rfl
    have h0 : ("" : String).length = 0 := rfl
    rw [h20, h0] at hlen
    omega
  | jobFail errMsg =>
    refine ⟨fun _ => ⟨rfl, rfl, ?_, rfl⟩,
      fun h => JobOutcome.noConfusion h, rfl, rfl⟩
    show ¬ (if errMsg = "" then "XP update failed" else errMsg) = ""
    by_cases hm : errMsg = ""
    · rw [if_pos hm]; decide
    · rw [if_neg hm]; exact hm
  | jobOk =>
    exact ⟨fun h => absurd rfl h, fun _ => rfl, rfl, rfl⟩

/-- C8 witness: a failed HTTP response on the sample state performs no
refetch, keeps the dataset, surfaces an error and clears the updating
state. -/
theorem update_trigger_error_paths_witness :
    (updateXPData (.httpError 500) (.ok []) "next" sampleState).2 = false
  ∧ (updateXPData (.httpError 500) (.ok []) "next" sampleState).1.leaderboard
      = sampleState.leaderboard
  ∧ (updateXPData (.httpError 500) (.ok []) "next" sampleState).1.error ≠ ""
  ∧ (updateXPData (.httpError 500) (.ok []) "next" sampleState).1.refreshing
      = false := by
  have h := update_trigger_error_paths (.httpError 500) (.ok []) "next" sampleState
  have h1 := h.1 (by intro hx; cases hx)
  exact ⟨h1.1, h1.2.1, h1.2.2.1, h.2.2.1⟩

/-- C1 (amended): the formatting step assigns ranks that are exactly the
consecutive integers 1..N in fetched order (a permutation of 1..N with
no gaps or duplicates), preserves the fetched payloads in their fetched
order without re-sorting, and therefore yields a score-descending,
tie-broken-by-updatedAt output exactly when the store honoured the
requested order. -/
theorem ranking_positional (data : List RawEntry) :
    (formatData data).map (fun e => e.rank) = List.range' 1 data.length
  ∧ (formatData data).map toRaw = data
  ∧ (data.Chain' storeOrd →
      (formatData data).Chain' (fun a b => storeOrd (toRaw a) (toRaw b))) := by
  refine ⟨formatDataFrom_map_rank 0 data, formatDataFrom_map_toRaw 0 data, ?_⟩
  intro h
  have hm : ((formatData data).map toRaw).Chain' storeOrd := by
    unfold formatData
    rw [formatDataFrom_map_toRaw]
    exact h
  exact (List.chain'_map toRaw).mp hm

/-- C1 witness: on a store response honouring the requested order, the
formatted output carries that order. -/
theorem ranking_positional_witness :
    dataSorted.Chain' storeOrd
  ∧ (formatData dataSorted).Chain' (fun a b => storeOrd (toRaw a) (toRaw b)) := by
  have hc : dataSorted.Chain' storeOrd :=
    List.chain'_cons.mpr ⟨Or.inl (by decide), List.chain'_singleton _⟩
  exact ⟨hc, (ranking_positional dataSorted).2.2 hc⟩

/-- C1 counterexample: when the store returns records in ascending score
order, the ranking step keeps that order — the output is not sorted by
score descending — while still assigning ranks 1, 2 positionally. -/
theorem ranking_not_resorted_cx :
    (formatData dataUnsorted).map (fun e => (e.rank, e.xp)) = [(1, 10), (2, 40)]
  ∧ ¬ (formatData dataUnsorted).Chain' (fun a b => b.xp ≤ a.xp) := by
  refine ⟨rfl, fun hch => ?_⟩
  have hstep : (mkRanked 2 rawHigh).xp ≤ (mkRanked 1 rawLow).xp :=
    (List.chain'_cons.mp hch).1
  exact absurd hstep (by decide)

/-- The staleness condition on a non-empty dataset is equivalent to the
head entry being at least 24 hours (86400000 ms) old. -/
theorem checkAutoUpdate_cons_iff (e : LeaderboardEntry)
    (tl : List LeaderboardEntry) (now : Int) :
    checkAutoUpdate (e :: tl) now = true ↔ 86400000 ≤ now - e.last_updated := by
  unfold checkAutoUpdate hoursSinceUpdate
  rw [decide_eq_true_iff]
  simp only [List.head?_cons, Option.map_some', Option.getD_some]
  rw [le_div_iff₀ (by norm_num)]
  constructor
  · intro h
    have hc : ((86400000 : ℤ) : ℚ) ≤ ((now - e.last_updated : ℤ) : ℚ) := by
      push_cast
      push_cast at h
      linarith
    exact_mod_cast hc
  · intro h
    have hc : ((86400000 : ℤ) : ℚ) ≤ ((now - e.last_updated : ℤ) : ℚ) := by
      exact_mod_cast h
    push_cast
    push_cast at hc
    linarith

/-- Renders whose dependency key equals the running key contribute no
staleness firing. -/
theorem stalenessTriggersAux_const (rest : List (List LeaderboardEntry × Int))
    (prev : Option Int) (hconst : ∀ p ∈ rest, depKey p.1 = prev) :
    stalenessTriggersAux prev rest = 0 := by
  induction rest with
  | nil => rfl
  | cons p tail ih =>
    have hp : depKey p.1 = prev := hconst p (List.mem_cons_self p tail)
    have htail : ∀ q ∈ tail, depKey q.1 = prev :=
      fun q hq => hconst q (List.mem_cons_of_mem p hq)
    cases p with
    | mk lb now =>
      unfold stalenessTriggersAux
      rw [if_neg]
      · rw [show depKey lb = prev from hp]
        rw [ih (fun q hq => htail q hq)]
      · intro hcontra
        exact hcontra.1 hp

/-- C2 (amended): the staleness check arms once per change of the
effect's dependency key — the first (top-ranked) entry's `last_updated`,
or the dataset's emptiness — so over any run of renders whose key stays
equal to the first one, the timer fires at most once: exactly when the
dataset is non-empty and the staleness condition holds; and that
condition is that the FIRST entry's `updatedAt` (not the most recent
entry's) is at least 24 hours old. -/
theorem staleness_rearm_characterization :
    (∀ (lb : List LeaderboardEntry) (now : Int)
        (rest : List (List LeaderboardEntry × Int)),
      (∀ p ∈ rest, depKey p.1 = depKey lb) →
      stalenessTriggers ((lb, now) :: rest)
        = (if lb ≠ [] ∧ checkAutoUpdate lb now = true then 1 else 0))
  ∧ (∀ (e : LeaderboardEntry) (tl : List LeaderboardEntry) (now : Int),
      checkAutoUpdate (e :: tl) now = true ↔
        86400000 ≤ now - e.last_updated) := by
  constructor
  · intro lb now rest hconst
    unfold stalenessTriggers
    unfold stalenessTriggersAux
    rw [stalenessTriggersAux_const rest (depKey lb) hconst]
    cases lb with
    | nil => simp [depKey]
    | cons e tl => simp [depKey]
  · exact checkAutoUpdate_cons_iff

/-- C2 witness: a singleton trace holding one entry 25 hours old at the
check time fires exactly once. -/
theorem staleness_rearm_characterization_witness :
    stalenessTriggers [([staleHead], 90000000)] = 1
  ∧ (checkAutoUpdate [staleHead] 90000000 = true ↔
      86400000 ≤ (90000000 : Int) - staleHead.last_updated) := by
  have hiff := staleness_rearm_characterization.2 staleHead [] 90000000
  have hch : checkAutoUpdate [staleHead] 90000000 = true :=
    hiff.mpr (by decide)
  have hmain := staleness_rearm_characterization.1 [staleHead] 90000000 []
    (fun p hp => absurd hp (List.not_mem_nil p))
  constructor
  · rw [hmain]
    simp [hch]
  · exact hiff

/-- C2 counterexample. First trace: the dataset holds a 25-hour-old
top-ranked entry together with a most recent entry only 1000 ms old, yet
the check fires — so the trigger is not governed by the most recent
entry's age. Second trace: two non-empty renders whose head timestamp
changes fire the check twice with no empty dataset in between — so the
check does re-fire on dataset updates without an emptied-then-non-empty
transition. -/
theorem staleness_cx :
    (stalenessTriggers [([staleHead, freshTail], 90000000)] = 1
      ∧ (90000000 : Int) - freshTail.last_updated = 1000)
  ∧ (stalenessTriggers staleTrace = 2
      ∧ ∀ p ∈ staleTrace, p.1 ≠ []) := by
  have hch1 : checkAutoUpdate [staleHead, freshTail] 90000000 = true :=
    (checkAutoUpdate_cons_iff staleHead [freshTail] 90000000).mpr (by decide)
  have hch2 : checkAutoUpdate [staleHead] 90000000 = true :=
    (checkAutoUpdate_cons_iff staleHead [] 90000000).mpr (by decide)
  have hch3 : checkAutoUpdate [staleHead2] 180000000 = true :=
    (checkAutoUpdate_cons_iff staleHead2 [] 180000000).mpr (by decide)
  refine ⟨⟨?_, by decide⟩, ?_, by decide⟩
  · unfold stalenessTriggers stalenessTriggersAux
    simp [depKey, hch1, stalenessTriggersAux]
  · have estep : stalenessTriggers staleTrace
        = (if depKey [staleHead] ≠ none
              ∧ [staleHead] ≠ ([] : List LeaderboardEntry)
              ∧ checkAutoUpdate [staleHead] 90000000 = true
            then 1 else 0)
          + ((if depKey [staleHead2] ≠ depKey [staleHead]
                ∧ [staleHead2] ≠ ([] : List LeaderboardEntry)
                ∧ checkAutoUpdate [staleHead2] 180000000 = true
              then 1 else 0) + 0) := rfl
    rw [estep, if_pos ⟨by decide, by decide, hch2⟩,
      if_pos ⟨by decide, by decide, hch3⟩]

/-- Manual-only event runs preserve the manual-fetch invariant: at most
one manual fetch in flight, and `loading` exactly while one is. -/
theorem manual_only_run (es : List FEvent) :
    ∀ s : FetchSt, manualInv s →
      (∀ e ∈ es, e = FEvent.clickReload ∨ e = FEvent.manualDone) →
      fvalid s es = true → manualInv (frun s es) := by
  induction es with
  | nil =>
    intro s hs _ _
    exact hs
  | cons e tail ih =>
    intro s hs hres hval
    have hsplit : fvalid s (e :: tail)
        = (fguard s e && fvalid (fstep s e) tail) := rfl
    rw [hsplit, Bool.and_eq_true] at hval
    have hg : fguard s e = true := hval.1
    have hrest : fvalid (fstep s e) tail = true := hval.2
    have hstep : manualInv (fstep s e) := by
      rcases hres e (List.mem_cons_self e tail) with he | he
      · subst he
        have hld : s.loading = false := by
          have hb : (!s.loading) = true := hg
          simpa using hb
        have hmif : s.manualInFlight = 0 := by
          rcases hs with ⟨h1, h2⟩
          by_contra hne
          have hone : s.manualInFlight = 1 := by omega
          have := h2.mpr hone
          rw [hld] at this
          exact Bool.false_ne_true this
        refine ⟨?_, ?_⟩
        · show s.manualInFlight + 1 ≤ 1
          omega
        · show (true = true) ↔ (s.manualInFlight + 1 = 1)
          constructor
          · intro _
            omega
          · intro _
            rfl
      · subst he
        have hpos : 0 < s.manualInFlight := by
          have hb : decide (0 < s.manualInFlight) = true := hg
          simpa using hb
        rcases hs with ⟨h1, _⟩
        refine ⟨?_, ?_⟩
        · show s.manualInFlight - 1 ≤ 1
          omega
        · show (false = true) ↔ (s.manualInFlight - 1 = 1)
          constructor
          · intro hcontra
            exact absurd hcontra (by simp)
          · intro hx
            exfalso
            omega
    have htail : ∀ x ∈ tail, x = FEvent.clickReload ∨ x = FEvent.manualDone :=
      fun x hx => hres x (List.mem_cons_of_mem e hx)
    exact ih (fstep s e) hstep htail hrest

/-- C3 (amended): over runs consisting only of manual-refresh starts and
manual-fetch completions — two manual refreshes back-to-back included —
at most one manual fetch is ever in flight, because the Reload trigger
is disabled while `loading` holds. (The global claim fails: see the
counterexample, where a background fetch overlaps a manual one.) -/
theorem manual_refresh_mutex (es : List FEvent)
    (hres : ∀ e ∈ es, e = FEvent.clickReload ∨ e = FEvent.manualDone)
    (hval : fvalid finit es = true) :
    (frun finit es).manualInFlight ≤ 1 :=
  (manual_only_run es finit ⟨by decide, by decide⟩ hres hval).1

/-- C3 witness: a single manual refresh leaves at most one manual fetch
in flight (and a second click while it runs is rejected by the guard:
`fvalid finit [clickReload, clickReload] = false`). -/
theorem manual_refresh_mutex_witness :
    (frun finit [FEvent.clickReload]).manualInFlight ≤ 1
  ∧ fvalid finit [FEvent.clickReload, FEvent.clickReload] = false :=
  ⟨manual_refresh_mutex [FEvent.clickReload] (by decide) (by decide),
    by decide⟩

/-- C3 counterexample: it is not the case that every guard-respecting
run keeps at most one fetch in flight — a debounced background fetch
(which leaves `loading` false) followed by a click on Reload yields two
concurrent fetches. -/
theorem overlapping_fetch_cx :
    ¬ (∀ es : List FEvent, fvalid finit es = true →
        inFlight (frun finit es) ≤ 1) := by
  intro h
  have hle := h [FEvent.bgFetch, FEvent.clickReload] (by decide)
  have htwo : inFlight (frun finit [FEvent.bgFetch, FEvent.clickReload]) = 2 :=
    by decide
  omega

/-- A pairwise time window tighter than 2000 ms yields the consecutive
gap bound needed by the debounce run. -/
theorem window_chain (ts : List Int)
    (hw : ∀ a ∈ ts, ∀ b ∈ ts, b - a < 2000) :
    ts.Chain' (fun a b => b < a + 2000) := by
  induction ts with
  | nil => exact List.chain'_nil
  | cons t tail ih =>
    cases tail with
    | nil => exact List.chain'_singleton t
    | cons u rest =>
      refine List.chain'_cons.mpr ⟨?_, ?_⟩
      · have hb := hw t (List.mem_cons_self t (u :: rest))
          u (List.mem_cons_of_mem t (List.mem_cons_self u rest))
        omega
      · exact ih (fun a ha b hb =>
          hw a (List.mem_cons_of_mem t ha) b (List.mem_cons_of_mem t hb))

/-- Running a sequence of notifications, each arriving before the
currently armed deadline, only slides the single pending timer slot to
2000 ms after the last notification; no refetch fires meanwhile. -/
theorem drun_notifs : ∀ (ts : List Int) (d : Int) (fs : List Int),
    (∀ u ∈ ts.head?, u < d) →
    ts.Chain' (fun a b => b < a + 2000) →
    drun false ⟨true, some d, fs⟩ (ts.map NEvent.notif)
      = ⟨true, some (ts.getLastD (d - 2000) + 2000), fs⟩ := by
  intro ts
  induction ts with
  | nil =>
    intro d fs _ _
    have hd : d - 2000 + 2000 = d := by omega
    show (⟨true, some d, fs⟩ : DState)
      = ⟨true, some (List.getLastD [] (d - 2000) + 2000), fs⟩
    rw [List.getLastD, hd]
  | cons t rest ih =>
    intro d fs hhead hchain
    have ht : t < d := hhead t (by simp)
    have hnle : ¬ d ≤ t := by omega
    have hfire : fireIfDue ⟨true, some d, fs⟩ t = ⟨true, some d, fs⟩ := by
      simp [fireIfDue, hnle]
    have hstep : dstep false ⟨true, some d, fs⟩ (NEvent.notif t)
        = ⟨true, some (t + 2000), fs⟩ := by
      simp [dstep, hfire]
    have hsplit : drun false ⟨true, some d, fs⟩ ((t :: rest).map NEvent.notif)
        = drun false (dstep false ⟨true, some d, fs⟩ (NEvent.notif t))
            (rest.map NEvent.notif) := rfl
    rw [hsplit, hstep]
    have hh2 : ∀ u ∈ rest.head?, u < t + 2000 := by
      intro u hu
      cases rest with
      | nil => simp at hu
      | cons v rr =>
        have hv : u = v := by
          simp at hu
          exact hu.symm
        subst hv
        exact (List.chain'_cons.mp hchain).1
    have hrest := ih (t + 2000) fs hh2 hchain.tail
    rw [hrest]
    have htt : t + 2000 - 2000 = t := by omega
    rw [htt, List.getLastD_cons]

/-- With `loading` captured as true, notifications never arm the
debounce timer. -/
theorem drun_loading : ∀ (ts : List Int) (fs : List Int),
    drun true ⟨true, none, fs⟩ (ts.map NEvent.notif) = ⟨true, none, fs⟩ := by
  intro ts
  induction ts with
  | nil =>
    intro fs
    rfl
  | cons t rest ih =>
    intro fs
    have hstep : dstep true ⟨true, none, fs⟩ (NEvent.notif t)
        = ⟨true, none, fs⟩ := rfl
    have hsplit : drun true ⟨true, none, fs⟩ ((t :: rest).map NEvent.notif)
        = drun true (dstep true ⟨true, none, fs⟩ (NEvent.notif t))
            (rest.map NEvent.notif) := rfl
    rw [hsplit, hstep]
    exact ih fs

/-- A burst of notifications starting from a fresh subscription slides
the pending deadline to 2000 ms after the last notification. -/
theorem drun_burst (t : Int) (ts : List Int)
    (hw : ∀ a ∈ t :: ts, ∀ b ∈ t :: ts, b - a < 2000) :
    drun false ⟨true, none, []⟩ ((t :: ts).map NEvent.notif)
      = ⟨true, some (ts.getLastD t + 2000), []⟩ := by
  have hsplit : drun false ⟨true, none, []⟩ ((t :: ts).map NEvent.notif)
      = drun false ⟨true, some (t + 2000), []⟩ (ts.map NEvent.notif) := rfl
  rw [hsplit]
  have hhead : ∀ u ∈ ts.head?, u < t + 2000 := by
    intro u hu
    cases ts with
    | nil => simp at hu
    | cons v rr =>
      have hv : u = v := by
        simp at hu
        exact hu.symm
      subst hv
      have hb := hw t (by simp) u (by simp)
      omega
  have hchain := window_chain ts (fun a ha b hb =>
    hw a (List.mem_cons_of_mem t ha) b (List.mem_cons_of_mem t hb))
  have hmain := drun_notifs ts (t + 2000) [] hhead hchain
  rw [hmain]
  have htt : t + 2000 - 2000 = t := by omega
  rw [htt]

/-- C6: a time-ordered burst of notifications arriving within a window
shorter than the 2-second debounce interval keeps restarting the single
timer, and exactly one refetch fires, 2000 ms after the last
notification; it does not fire if the subscription is torn down before
that deadline; and no refetch ever fires when a refresh is already in
flight for the whole epoch (`loading` captured true, under which
notifications are dropped rather than armed). -/
theorem debounce_burst_single_refetch :
    (∀ (t : Int) (ts : List Int),
      List.Chain' (fun a b => a ≤ b) (t :: ts) →
      (∀ a ∈ t :: ts, ∀ b ∈ t :: ts, b - a < 2000) →
      refetchTimes false ((t :: ts).map NEvent.notif)
        = [ts.getLastD t + 2000])
  ∧ (∀ (t : Int) (ts : List Int) (u : Int),
      List.Chain' (fun a b => a ≤ b) (t :: ts) →
      (∀ a ∈ t :: ts, ∀ b ∈ t :: ts, b - a < 2000) →
      u < ts.getLastD t + 2000 →
      refetchTimes false (((t :: ts).map NEvent.notif) ++ [NEvent.teardown u])
        = [])
  ∧ (∀ ts : List Int, refetchTimes true (ts.map NEvent.notif) = []) := by
  refine ⟨?_, ?_, ?_⟩
  · intro t ts _ hw
    unfold refetchTimes
    rw [drun_burst t ts hw]
    rfl
  · intro t ts u _ hw hu
    unfold refetchTimes
    have happ : drun false ⟨true, none, []⟩
          (((t :: ts).map NEvent.notif) ++ [NEvent.teardown u])
        = drun false (drun false ⟨true, none, []⟩ ((t :: ts).map NEvent.notif))
            [NEvent.teardown u] := by
      simp [drun, List.foldl_append]
    rw [happ, drun_burst t ts hw]
    have hnle : ¬ ts.getLastD t + 2000 ≤ u := by omega
    have htd : ∀ L : Int, ¬ L ≤ u →
        drun false ⟨true, some L, []⟩ [NEvent.teardown u]
          = ⟨false, none, []⟩ := by
      intro L hnl
      show dstep false ⟨true, some L, []⟩ (NEvent.teardown u)
        = ⟨false, none, []⟩
      simp [dstep, fireIfDue, hnl]
    rw [htd (ts.getLastD t + 2000) hnle]
    rfl
  · intro ts
    unfold refetchTimes
    rw [drun_loading ts []]
    rfl

/-- C6 witness: three notifications at 0, 500 and 1000 ms produce exactly
one refetch at 3000 ms; with a teardown at 2500 ms, or with a refresh in
flight for the epoch, none fires. -/
theorem debounce_burst_single_refetch_witness :
    refetchTimes false [NEvent.notif 0, NEvent.notif 500, NEvent.notif 1000]
      = [3000]
  ∧ refetchTimes false [NEvent.notif 0, NEvent.notif 500, NEvent.notif 1000,
      NEvent.teardown 2500] = []
  ∧ refetchTimes true [NEvent.notif 0, NEvent.notif 500] = [] := by
  have hchain3 : List.Chain' (fun a b => a ≤ b) [(0 : Int), 500, 1000] :=
    List.chain'_cons.mpr ⟨by decide,
      List.chain'_cons.mpr ⟨by decide, List.chain'_singleton _⟩⟩
  refine ⟨?_, ?_, ?_⟩
  · have h := debounce_burst_single_refetch.1 0 [500, 1000]
      hchain3 (by decide)
    simpa using h
  · have h := debounce_burst_single_refetch.2.1 0 [500, 1000] 2500
      hchain3 (by decide) (by decide)
    simpa using h
  · exact debounce_burst_single_refetch.2.2 [0, 500]
